import Mathlib

/-!
Shallow embedding of the `@bowtie/api` client (`src/Api.js`) and proofs about
its request-configuration, authorization-resolution and response-classification
logic.

Modelling conventions:
* Zero-argument provider functions ("value or function" parameters) are
  embedded as functions of an abstract world type `ω`, supplied at the moment
  of resolution; a literal value ignores the world.  This captures the JS
  pattern where a stored closure reads ambient mutable state each call.
* Promise chains over responses are embedded as `Except ε Response`, where
  `.error` is a rejected promise / thrown error and `.ok` a fulfilled one.
* The external `fetch` transport is an explicit parameter
  `Request → Except ε Response`; base64 and JSON encoding are external
  collaborators and appear as function parameters.
* JS truthiness on strings ("" is falsy) and on option-like absent fields
  (`undefined` is falsy, objects and functions are truthy) is modelled by
  explicit `…Truthy` functions.
-/

namespace BowtieApi

/-- A transport response as the library observes it: the `ok` flag and the
numeric `status` used for classification and event dispatch. -/
structure Response where
  ok : Bool
  status : Nat
deriving DecidableEq

/-- A "value or zero-argument function" parameter (token, username, password,
headers).  `fn` reads the ambient world at resolution time. -/
inductive Value (ω α : Type) where
  | lit : α → Value ω α
  | fn : (ω → α) → Value ω α

/-- `varOrFn` from `Api.js`: if the stored reference is a function, invoke it
(now, against the current world), otherwise return the literal value. -/
def varOrFn {ω α : Type} (w : ω) : Value ω α → α
  | .lit a => a
  | .fn f => f w

/-- JS truthiness of an optional string-or-provider field: absent is falsy,
a literal string is truthy iff non-empty, a function is always truthy. -/
def valueTruthy {ω : Type} : Option (Value ω String) → Bool
  | none => false
  | some (.lit s) => s ≠ ""
  | some (.fn _) => true

/-- A header map; only the key-to-value mapping is relevant to the library. -/
structure HeaderMap where
  entries : List (String × String)
deriving DecidableEq

/-- Look up a header by exact key. -/
def HeaderMap.get (m : HeaderMap) (k : String) : Option String :=
  (m.entries.find? (fun e => e.1 = k)).map (fun e => e.2)

/-- JS property assignment `headers[k] = v`. -/
def HeaderMap.set (m : HeaderMap) (k v : String) : HeaderMap :=
  ⟨m.entries.filter (fun e => e.1 ≠ k) ++ [(k, v)]⟩

/-- `deepmerge` on two plain header objects: key-by-key, the right (override)
side wins on conflict. -/
def mergeHeaders (a b : HeaderMap) : HeaderMap :=
  b.entries.foldl (fun acc e => acc.set e.1 e.2) a

/-- Fetch options: `method`, `headers` (a literal map or a provider) and
`body`; absent fields model absent JS object properties. -/
structure FetchOptions (ω : Type) where
  method : Option String := none
  headers : Option (Value ω HeaderMap) := none
  body : Option String := none

/-- `merge(defaultOptions, options)` (deepmerge): scalar fields are replaced
wholesale by the override when present; `headers` are merged key-by-key only
when both sides are literal maps, otherwise a present override (e.g. a
provider function, which deepmerge does not merge into) replaces the default
wholesale. -/
def mergeOptions {ω : Type} (d o : FetchOptions ω) : FetchOptions ω where
  method := o.method <|> d.method
  headers :=
    match d.headers, o.headers with
    | some (.lit dm), some (.lit om) => some (.lit (mergeHeaders dm om))
    | _, some oh => some oh
    | dh, none => dh
  body := o.body <|> d.body

/-! ## Sanitization and URL construction -/

/-- Remove every `/` character (`replace(/\//g, '')` in `sanitize`). -/
def stripSlashes (s : String) : String :=
  String.mk (s.data.filter (fun c => c ≠ '/'))

/-- Does the character list contain `sep` as a contiguous sublist?  For a
non-empty `sep`, this is exactly `s.split(sep).length > 1` in JS. -/
def hasSub (sep : List Char) : List Char → Bool
  | [] => sep.isEmpty
  | c :: rest => sep.isPrefixOf (c :: rest) || hasSub sep rest

/-- The characters before the first occurrence of `sep` (the whole list when
`sep` does not occur).  For a non-empty `sep` occurring in `s`, this is
`s.split(sep)[0]` in JS. -/
def beforeSub (sep : List Char) : List Char → List Char
  | [] => []
  | c :: rest => if sep.isPrefixOf (c :: rest) then [] else c :: beforeSub sep rest

/-- Is the last character a slash (`substr(-1) === '/'` in JS)? -/
def lastIsSlash (s : String) : Bool :=
  s.data.getLast? = some '/'

/-- Trim one trailing slash if present (`substr(-1) === '/'` check followed by
`substr(0, length - 1)` in `sanitize`). -/
def trimTrailingSlash (s : String) : String :=
  if lastIsSlash s then String.mk s.data.dropLast else s

/-- The fatal sanitization failure: `API Base URL must use HTTPS`. -/
inductive SanitizeError where
  | insecureScheme
deriving DecidableEq

/-- Scheme handling in `sanitize`: split root on `://`; with a scheme present
(`rootParts.length > 1`, i.e. `://` occurs) whose name (`rootParts[0]`, the
text before the first `://`) is not `https`, throw under `secureOnly` and
otherwise only warn (the `Bool` in the result records the warning); with no
scheme present, prepend `https://` unconditionally. -/
def sanitizeRoot (secureOnly : Bool) (root : String) : Except SanitizeError (String × Bool) :=
  if hasSub "://".data root.data then
    if String.mk (beforeSub "://".data root.data) ≠ "https" then
      if secureOnly then .error .insecureScheme
      else .ok (root, true)
    else .ok (root, false)
  else .ok ("https://" ++ root, false)

/-- The instance fields produced by `sanitize` (the `warned` flag records the
non-fatal `console.warn` path). -/
structure Sanitized where
  root : String
  stage : Option String
  pfx : Option String
  version : Option String
  warned : Bool
deriving DecidableEq

/-- Full `sanitize`: scheme policy on `root`, trim one trailing slash from
`root`, strip all slashes from `stage`/`prefix`/`version` when set (stripping
is the identity on the empty string, matching the skipped falsy case). -/
def sanitize (secureOnly : Bool) (root : String) (stage pfx version : Option String) :
    Except SanitizeError Sanitized :=
  (sanitizeRoot secureOnly root).map (fun rw =>
    { root := trimTrailingSlash rw.1
      stage := stage.map stripSlashes
      pfx := pfx.map stripSlashes
      version := version.map stripSlashes
      warned := rw.2 })

/-- One `if (this.x) baseUrl += '/' + this.x` step of `baseUrl` (a segment is
appended only when truthy: present and non-empty). -/
def appendSeg (b : String) : Option String → String
  | some s => if s = "" then b else b ++ "/" ++ s
  | none => b

/-- `baseUrl()`: root, then stage, prefix, version in that order (each only
when truthy), then a trailing slash. -/
def baseUrl (root : String) (stage pfx version : Option String) : String :=
  appendSeg (appendSeg (appendSeg root stage) pfx) version ++ "/"

/-- Is the first character a slash (`substr(0, 1) === '/'` in JS)? -/
def firstIsSlash (s : String) : Bool :=
  s.data.head? = some '/'

/-- Drop the first character (`substr(1)` in JS). -/
def dropFirst (s : String) : String :=
  String.mk (s.data.drop 1)

/-- `buildUrl(path)`: strip at most one leading slash from `path`, then append
to `baseUrl()`. -/
def buildUrl (root : String) (stage pfx version : Option String) (path : String) : String :=
  baseUrl root stage pfx version ++ (if firstIsSlash path then dropFirst path else path)

/-- Spec-side rendering of one optional segment, from the words of §4.2:
`[+ "/" + segment]`, included only if non-empty. -/
def specSeg : Option String → String
  | some s => if s = "" then "" else "/" ++ s
  | none => ""

/-- Number of consecutive `/` characters at the end of a string (used to state
"ends with exactly one trailing slash"). -/
def trailingSlashCount (s : String) : Nat :=
  (s.data.reverse.takeWhile (fun c => c = '/')).length

/-! ## Authorization -/

/-- The custom-auth record stored by `authorize` under the `Custom` strategy:
the whole `args` object, of which the library reads the headers
object-or-provider and the `validate` predicate (both guaranteed present and
well-typed at store time). -/
structure CustomAuth (ω : Type) where
  headers : Value ω HeaderMap
  validate : ω → Bool

/-- `String.prototype.trim`: remove leading and trailing whitespace. -/
def jsTrim (s : String) : String :=
  String.mk (((s.data.dropWhile Char.isWhitespace).reverse.dropWhile Char.isWhitespace).reverse)

/-- `hasValidToken()`: resolve the stored token (or `null` when absent or
resolving to the falsy empty string) and require a value that is non-empty
and non-empty after trimming. -/
def hasValidToken {ω : Type} (w : ω) (token : Option (Value ω String)) : Bool :=
  match token with
  | none => false
  | some v =>
    let t := varOrFn w v
    t ≠ "" && jsTrim t ≠ ""

/-- `isAuthorized()`: with strategy `Custom` and a stored custom-auth record
(whose `validate` is always present, see `CustomAuth`), freshly invoke its
`validate` predicate; otherwise require a non-`None` strategy and a valid
token. -/
def isAuthorized {ω : Type} (w : ω) (strategy : String) (customAuth : Option (CustomAuth ω))
    (token : Option (Value ω String)) : Bool :=
  match strategy == "Custom", customAuth with
  | true, some ca => ca.validate w
  | _, _ => strategy ≠ "None" && hasValidToken w token

/-- The `validate` argument to `authorize`: a callable predicate, or some
other JS value recorded only by its truthiness (`verifyRequired` rejects the
latter). -/
inductive ValidateArg (ω : Type) where
  | callable : (ω → Bool) → ValidateArg ω
  | notCallable : Bool → ValidateArg ω

/-- Truthiness of the optional `args.headers` field: absent is falsy, objects
and functions are truthy. -/
def headersTruthy {ω : Type} : Option (Value ω HeaderMap) → Bool
  | none => false
  | some _ => true

/-- Truthiness of the optional `args.validate` field. -/
def validateTruthy {ω : Type} : Option (ValidateArg ω) → Bool
  | none => false
  | some (.callable _) => true
  | some (.notCallable b) => b

/-- Whether `args.validate` is present and callable (what `verifyRequired`
checks with `{ validate: 'function' }`). -/
def validateCallable {ω : Type} : Option (ValidateArg ω) → Bool
  | some (.callable _) => true
  | _ => false

/-- Arguments to `authorize`. -/
structure AuthArgs (ω : Type) where
  token : Option (Value ω String) := none
  username : Option (Value ω String) := none
  password : Option (Value ω String) := none
  headers : Option (Value ω HeaderMap) := none
  validate : Option (ValidateArg ω) := none

/-- The spec-level error kind for a malformed `authorize` call; both the
explicit `Invalid args to authorize()` throw and the `verifyRequired` throw
on a non-callable `validate` surface as this kind. -/
inductive AuthorizeError where
  | invalidAuthorizationArgs
deriving DecidableEq

/-! ## The API instance and request dispatch -/

/-- The mutable instance state of an `Api` object after construction, plus the
registered middlewares and event listener names.  `strategy` is
`settings.authorization` (post-capitalization); `ε` is the type of thrown /
rejected middleware and transport errors. -/
structure ApiInst (ω ε : Type) where
  strategy : String
  token : Option (Value ω String) := none
  customAuth : Option (CustomAuth ω) := none
  root : String := ""
  stage : Option String := none
  pfx : Option String := none
  version : Option String := none
  defaultOptions : FetchOptions ω := {}
  middlewares : List (Response → Except ε Response) := []
  eventNames : List String := []

/-- `authorize(args)` over the instance state: a truthy `token` argument is
stored unconditionally; else under `Custom` with truthy `headers` and
`validate`, `verifyRequired` demands a callable `validate` and the record is
stored; else under `Basic` with truthy `username` and `password`, a provider
is stored that base64-encodes `username:password` lazily on each read;
otherwise the call throws. -/
def authorize {ω ε : Type} (b64 : String → String) (api : ApiInst ω ε) (args : AuthArgs ω) :
    Except AuthorizeError (ApiInst ω ε) :=
  if valueTruthy args.token then
    .ok { api with token := args.token }
  else if api.strategy = "Custom" && headersTruthy args.headers && validateTruthy args.validate then
    match args.headers, args.validate with
    | some hv, some (.callable f) => .ok { api with customAuth := some ⟨hv, f⟩ }
    | _, _ => .error .invalidAuthorizationArgs
  else if api.strategy = "Basic" && valueTruthy args.username && valueTruthy args.password then
    .ok { api with token := some (.fn (fun w =>
      b64 (varOrFn w (args.username.getD (.lit "undefined")) ++ ":" ++
           varOrFn w (args.password.getD (.lit "undefined"))))) }
  else
    .error .invalidAuthorizationArgs

/-- The request handed to the transport: the built URL and the final merged
options.  `headers = none` models calling fetch with no headers object. -/
structure Request where
  url : String
  method : Option String
  headers : Option HeaderMap
  body : Option String
deriving DecidableEq

/-- The request-construction half of `callRoute`: merge default and per-call
options, resolve a headers provider, and, when authorized, either merge in the
custom-auth headers (when a custom-auth record is stored) or set the
`Authorization` header to `"<strategy> <resolved token>"`.  The `none` result
models the `TypeError` of assigning `Authorization` on absent headers (never
reached with the library's default options). -/
def buildRequest {ω ε : Type} (w : ω) (api : ApiInst ω ε) (path : String)
    (options : FetchOptions ω) : Option Request :=
  let callOptions := mergeOptions api.defaultOptions options
  let hdrs : Option HeaderMap := callOptions.headers.map (varOrFn w)
  let finalHdrs : Option (Option HeaderMap) :=
    if isAuthorized w api.strategy api.customAuth api.token then
      match api.customAuth with
      | some ca => some (some (mergeHeaders (hdrs.getD ⟨[]⟩) (varOrFn w ca.headers)))
      | none =>
        match hdrs with
        | some h =>
          some (some (h.set "Authorization"
            (api.strategy ++ " " ++ varOrFn w (api.token.getD (.lit "undefined")))))
        | none => none
    else some hdrs
  finalHdrs.map (fun h =>
    { url := buildUrl api.root api.stage api.pfx api.version path
      method := callOptions.method
      headers := h
      body := callOptions.body })

/-! ## Middleware chain, events, and classification -/

/-- `handleMiddlewares`: fold the registered middlewares over the resolved
response promise, each `.then` receiving the previous stage's output and a
rejection skipping every later stage. -/
def handleMiddlewares {ε : Type} (mws : List (Response → Except ε Response)) (r : Response) :
    Except ε Response :=
  mws.foldl (fun promiseChain currentTask => promiseChain.bind currentTask) (Except.ok r)

/-- JS `Number#toString` for naturals: most-significant-first decimal digits
(fuel-based division loop; `fuel = n + 1` always suffices). -/
def natToDecimalAux (fuel n : Nat) (acc : List Char) : List Char :=
  match fuel with
  | 0 => acc
  | fuel + 1 =>
    if n = 0 then acc
    else natToDecimalAux fuel (n / 10) (Nat.digitChar (n % 10) :: acc)

/-- Decimal string of a natural number, as `response.status.toString()`
produces it. -/
def natToDecimal (n : Nat) : String :=
  if n = 0 then "0" else String.mk (natToDecimalAux (n + 1) n [])

/-- The unanchored regular-expression test `/2\d\d/.test(status)`: does the
character list contain a `'2'` followed by two decimal digits anywhere? -/
def has2dd : List Char → Bool
  | c :: a :: b :: rest =>
    (c = '2' && a.isDigit && b.isDigit) || has2dd (a :: b :: rest)
  | _ => false

/-- `handleEvents`: emit to a listener registered under the status string if
any, then to `success` listeners when `/2\d\d/` matches the status string and
to `error` listeners otherwise; return the response unaltered.  The first
component lists the events emitted, in order. -/
def handleEvents (names : List String) (r : Response) : List String × Response :=
  let statusStr := natToDecimal r.status
  let statusEvents := if names.contains statusStr then [statusStr] else []
  let catEvents :=
    if has2dd statusStr.data then
      if names.contains "success" then ["success"] else []
    else
      if names.contains "error" then ["error"] else []
  (statusEvents ++ catEvents, r)

/-- The outcome of one `callRoute` promise. -/
inductive CallOutcome (ε : Type) where
  | resolved : Response → CallOutcome ε
  | rejectedResponse : Response → CallOutcome ε
  | rejectedError : ε → CallOutcome ε
  | faulted : CallOutcome ε

/-- Outcome of a call together with the events emitted while handling it. -/
structure CallResult (ε : Type) where
  outcome : CallOutcome ε
  events : List String

/-- The response half of `callRoute`:
`fetch(...).then(handleMiddlewares).then(handleEvents).then(classify).catch(reject)`.
A transport or middleware rejection skips the event stage and rejects the
call; otherwise the (possibly transformed) response resolves the call when its
`ok` flag is set and rejects it with that response when not. -/
def processResponse {ε : Type} (mws : List (Response → Except ε Response)) (names : List String)
    (fetchResult : Except ε Response) : CallResult ε :=
  match fetchResult with
  | .error e => ⟨.rejectedError e, []⟩
  | .ok r =>
    match handleMiddlewares mws r with
    | .error e => ⟨.rejectedError e, []⟩
    | .ok r1 =>
      let out := handleEvents names r1
      if out.2.ok then ⟨.resolved out.2, out.1⟩ else ⟨.rejectedResponse out.2, out.1⟩

/-- `callRoute`: build the request (a `faulted` outcome models the synchronous
executor crash on absent headers), invoke the transport, and process the
response. -/
def callRoute {ω ε : Type} (w : ω) (api : ApiInst ω ε)
    (transport : Request → Except ε Response) (path : String) (options : FetchOptions ω) :
    CallResult ε :=
  match buildRequest w api path options with
  | none => ⟨.faulted, []⟩
  | some req => processResponse api.middlewares api.eventNames (transport req)

/-! ## Verb helpers -/

/-- The option mutation performed by `post(path, body, options)` before
delegating: force `method` to `POST` and `body` to the serialized payload. -/
def postOptions {ω β : Type} (stringify : β → String) (b : β) (options : FetchOptions ω) :
    FetchOptions ω :=
  { options with method := some "POST", body := some (stringify b) }

/-- The option mutation performed by `put`. -/
def putOptions {ω β : Type} (stringify : β → String) (b : β) (options : FetchOptions ω) :
    FetchOptions ω :=
  { options with method := some "PUT", body := some (stringify b) }

/-- The option mutation performed by `patch`. -/
def patchOptions {ω β : Type} (stringify : β → String) (b : β) (options : FetchOptions ω) :
    FetchOptions ω :=
  { options with method := some "PATCH", body := some (stringify b) }

/-- The option mutation performed by `delete` (no body is set). -/
def deleteOptions {ω : Type} (options : FetchOptions ω) : FetchOptions ω :=
  { options with method := some "DELETE" }

/-- The option mutation performed by `head` (no body is set). -/
def headOptions {ω : Type} (options : FetchOptions ω) : FetchOptions ω :=
  { options with method := some "HEAD" }

/-- `post`: mutate the options, then delegate to `callRoute`. -/
def post {ω ε β : Type} (w : ω) (api : ApiInst ω ε) (transport : Request → Except ε Response)
    (stringify : β → String) (path : String) (b : β) (options : FetchOptions ω) : CallResult ε :=
  callRoute w api transport path (postOptions stringify b options)

/-- `put`: mutate the options, then delegate to `callRoute`. -/
def put {ω ε β : Type} (w : ω) (api : ApiInst ω ε) (transport : Request → Except ε Response)
    (stringify : β → String) (path : String) (b : β) (options : FetchOptions ω) : CallResult ε :=
  callRoute w api transport path (putOptions stringify b options)

/-- `patch`: mutate the options, then delegate to `callRoute`. -/
def patch {ω ε β : Type} (w : ω) (api : ApiInst ω ε) (transport : Request → Except ε Response)
    (stringify : β → String) (path : String) (b : β) (options : FetchOptions ω) : CallResult ε :=
  callRoute w api transport path (patchOptions stringify b options)

/-- `delete`: mutate the options, then delegate to `callRoute`. -/
def delete {ω ε : Type} (w : ω) (api : ApiInst ω ε) (transport : Request → Except ε Response)
    (path : String) (options : FetchOptions ω) : CallResult ε :=
  callRoute w api transport path (deleteOptions options)

/-- `head`: mutate the options, then delegate to `callRoute`. -/
def head {ω ε : Type} (w : ω) (api : ApiInst ω ε) (transport : Request → Except ε Response)
    (path : String) (options : FetchOptions ω) : CallResult ε :=
  callRoute w api transport path (headOptions options)

/-! ## Helper lemmas -/

theorem jsTrim_empty : jsTrim "" = "" := rfl

theorem hasValidToken_iff {ω : Type} (w : ω) (token : Option (Value ω String)) :
    hasValidToken w token = true ↔ ∃ v, token = some v ∧ jsTrim (varOrFn w v) ≠ "" := by
  cases token with
  | none => simp [hasValidToken]
  | some v =>
    simp only [hasValidToken, Bool.and_eq_true, decide_eq_true_eq, Option.some.injEq]
    constructor
    · rintro ⟨-, h2⟩
      exact ⟨v, rfl, h2⟩
    · rintro ⟨v', hv', h⟩
      cases hv'
      refine ⟨fun he => h ?_, h⟩
      rw [he]
      rfl

theorem stripSlashes_not_mem (s : String) : '/' ∉ (stripSlashes s).data := by
  simp [stripSlashes]

theorem appendSeg_eq_specSeg (b : String) (o : Option String) :
    appendSeg b o = b ++ specSeg o := by
  cases o with
  | none =>
    apply String.ext
    simp [appendSeg, specSeg, String.data_append]
  | some s =>
    by_cases hs : s = "" <;>
      · apply String.ext
        simp [appendSeg, specSeg, hs, String.data_append]

theorem lastIsSlash_append_of_ne_nil (a b : String) (hb : b.data ≠ []) :
    lastIsSlash (a ++ b) = lastIsSlash b := by
  simp [lastIsSlash, String.data_append, List.getLast?_append_of_ne_nil _ hb]

theorem lastIsSlash_appendSeg (b : String) (o : Option String)
    (hb : lastIsSlash b = false) (ho : ∀ s, o = some s → '/' ∉ s.data) :
    lastIsSlash (appendSeg b o) = false := by
  cases o with
  | none => exact hb
  | some s =>
    by_cases hs : s = ""
    · simpa [appendSeg, hs] using hb
    · have hsd : s.data ≠ [] := fun h => hs (String.ext h)
      have heq : lastIsSlash (appendSeg b (some s)) = lastIsSlash s := by
        simp only [appendSeg, hs, if_false]
        exact lastIsSlash_append_of_ne_nil (b ++ "/") s hsd
      rw [heq]
      rcases hl : s.data.getLast? with - | c
      · simp [lastIsSlash, hl]
      · obtain ⟨hne, hc⟩ := List.mem_getLast?_eq_getLast (Option.mem_def.mpr hl)
        have : c ∈ s.data := hc ▸ List.getLast_mem hne
        have hcs : c ≠ '/' := fun h => ho s rfl (h ▸ this)
        simp [lastIsSlash, hl, hcs]

theorem trailingSlashCount_append_slash (b : String) (hb : lastIsSlash b = false) :
    trailingSlashCount (b ++ "/") = 1 := by
  have hd : (b ++ "/").data = b.data ++ ['/'] := by simp [String.data_append]
  have hrev : (b ++ "/").data.reverse = '/' :: b.data.reverse := by simp [hd]
  have hh : b.data.reverse.takeWhile (fun c => decide (c = '/')) = [] := by
    cases hr : b.data.reverse with
    | nil => rfl
    | cons c t =>
      have : b.data.getLast? = some c := by rw [← List.head?_reverse, hr]; rfl
      have hc : c ≠ '/' := by
        intro h
        rw [h] at this
        simp [lastIsSlash, this] at hb
      simp [List.takeWhile_cons, hc]
  simp [trailingSlashCount, hrev, List.takeWhile_cons, hh]

theorem lastIsSlash_append_slash (b : String) : lastIsSlash (b ++ "/") = true := by
  rw [lastIsSlash_append_of_ne_nil b "/" (by decide)]
  rfl

theorem digitChar_isDigit : ∀ m, m < 10 → (Nat.digitChar m).isDigit = true := by decide

theorem natToDecimalAux_digits (fuel : Nat) : ∀ (n : Nat) (acc : List Char),
    (∀ c ∈ acc, c.isDigit = true) → ∀ c ∈ natToDecimalAux fuel n acc, c.isDigit = true := by
  induction fuel with
  | zero => intro n acc hacc c hc; exact hacc c hc
  | succ fuel ih =>
    intro n acc hacc c hc
    rw [natToDecimalAux] at hc
    by_cases hn : n = 0
    · rw [if_pos hn] at hc
      exact hacc c hc
    · rw [if_neg hn] at hc
      refine ih (n / 10) _ ?_ c hc
      intro d hd
      rcases List.mem_cons.mp hd with h | h
      · rw [h]; exact digitChar_isDigit _ (Nat.mod_lt _ (by decide))
      · exact hacc d h

theorem natToDecimal_digits (n : Nat) : ∀ c ∈ (natToDecimal n).data, c.isDigit = true := by
  by_cases hn : n = 0
  · subst hn; decide
  · rw [natToDecimal, if_neg hn]
    exact natToDecimalAux_digits _ n [] (by simp)

theorem natToDecimal_ne_success (n : Nat) : natToDecimal n ≠ "success" := by
  intro h
  have := natToDecimal_digits n
  rw [h] at this
  exact absurd (this 's' (by decide)) (by decide)

theorem natToDecimal_ne_error (n : Nat) : natToDecimal n ≠ "error" := by
  intro h
  have := natToDecimal_digits n
  rw [h] at this
  exact absurd (this 'e' (by decide)) (by decide)

set_option maxRecDepth 100000 in
set_option maxHeartbeats 1000000 in
theorem has2dd_natToDecimal_lt_1000 :
    ∀ s, s < 1000 → has2dd (natToDecimal s).data = (decide (200 ≤ s) && decide (s ≤ 299)) := by
  decide

theorem headerMap_get_set (m : HeaderMap) (k v : String) :
    (m.set k v).get k = some v := by
  rw [HeaderMap.get, HeaderMap.set]
  have hnone : List.find? (fun e => decide (e.1 = k))
      (m.entries.filter (fun e => decide (e.1 ≠ k))) = none := by
    rw [List.find?_eq_none]
    intro x hx
    have := (List.mem_filter.mp hx).2
    simpa using this
  simp [List.find?_append, hnone]

theorem handleMiddlewares_foldl_bind {ε : Type} (xs : List (Response → Except ε Response)) :
    ∀ (acc : Except ε Response),
      xs.foldl (fun chain task => chain.bind task) acc
        = acc.bind (fun r => handleMiddlewares xs r) := by
  induction xs with
  | nil =>
    intro acc
    cases acc <;> rfl
  | cons x xs ih =>
    intro acc
    have hstep : ∀ r, handleMiddlewares (x :: xs) r
        = (x r).bind (fun r1 => handleMiddlewares xs r1) := by
      intro r
      rw [handleMiddlewares, List.foldl_cons]
      exact ih ((Except.ok r).bind x)
    rw [List.foldl_cons, ih]
    cases acc with
    | error e => rfl
    | ok a =>
      show ((Except.ok a).bind x).bind _ = (Except.ok a).bind fun r => handleMiddlewares (x :: xs) r
      show (x a).bind _ = handleMiddlewares (x :: xs) a
      rw [hstep a]

theorem handleMiddlewares_cons {ε : Type} (f : Response → Except ε Response)
    (mws : List (Response → Except ε Response)) (r : Response) :
    handleMiddlewares (f :: mws) r = (f r).bind (fun r1 => handleMiddlewares mws r1) := by
  rw [handleMiddlewares, List.foldl_cons]
  exact handleMiddlewares_foldl_bind mws ((Except.ok r).bind f)

theorem handleMiddlewares_append {ε : Type} (xs ys : List (Response → Except ε Response))
    (r : Response) :
    handleMiddlewares (xs ++ ys) r
      = (handleMiddlewares xs r).bind (fun r1 => handleMiddlewares ys r1) := by
  rw [handleMiddlewares, List.foldl_append]
  exact handleMiddlewares_foldl_bind ys _

theorem buildRequest_proj {ω ε : Type} (w : ω) (api : ApiInst ω ε) (path : String)
    (options : FetchOptions ω) (req : Request)
    (h : buildRequest w api path options = some req) :
    req.method = (mergeOptions api.defaultOptions options).method ∧
    req.body = (mergeOptions api.defaultOptions options).body := by
  simp only [buildRequest] at h
  split at h
  · split at h
    · simp only [Option.map_some', Option.some.injEq] at h
      rw [← h]
      exact ⟨rfl, rfl⟩
    · split at h
      · simp only [Option.map_some', Option.some.injEq] at h
        rw [← h]
        exact ⟨rfl, rfl⟩
      · simp at h
  · simp only [Option.map_some', Option.some.injEq] at h
    rw [← h]
    exact ⟨rfl, rfl⟩

/-! ## Claim theorems -/

/-- C3: `isAuthorized()` returns the fresh result of the stored custom-auth
record's `validate` predicate when the strategy is `Custom` and such a record
is present; in every other case (no record stored, or a non-`Custom`
strategy) it is true iff the strategy is not `None` and a token is stored
whose resolved string value is non-empty after trimming whitespace; in
particular it is false whenever the strategy is `None`, regardless of any
stored token. -/
theorem isAuthorized_characterization {ω : Type} (w : ω) (strategy : String)
    (customAuth : Option (CustomAuth ω)) (token : Option (Value ω String)) :
    (∀ ca, strategy = "Custom" → customAuth = some ca →
      isAuthorized w strategy customAuth token = ca.validate w) ∧
    (customAuth = none →
      (isAuthorized w strategy customAuth token = true ↔
        strategy ≠ "None" ∧ ∃ v, token = some v ∧ jsTrim (varOrFn w v) ≠ "")) ∧
    (strategy ≠ "Custom" →
      (isAuthorized w strategy customAuth token = true ↔
        strategy ≠ "None" ∧ ∃ v, token = some v ∧ jsTrim (varOrFn w v) ≠ "")) ∧
    (strategy = "None" → isAuthorized w strategy customAuth token = false) := by
  refine ⟨?_, ?_, ?_, ?_⟩
  · rintro ca h1 rfl
    subst h1
    simp [isAuthorized]
  · rintro rfl
    cases hsc : strategy == "Custom" <;>
      simp [isAuthorized, hsc, hasValidToken_iff, and_assoc]
  · intro h
    have hsc : (strategy == "Custom") = false := by simpa using h
    cases customAuth <;>
      simp [isAuthorized, hsc, hasValidToken_iff, and_assoc]
  · rintro rfl
    cases customAuth <;> simp [isAuthorized, hasValidToken_iff]

/-- Witness for C3 at concrete inputs: a failing custom validator under
`Custom`, a valid literal token under `Bearer`, and the strategy `None` with
the same stored token. -/
theorem isAuthorized_characterization_witness :
    isAuthorized () "Custom" (some ⟨Value.lit ⟨[]⟩, fun _ => false⟩) (some (.lit "abc")) = false ∧
    isAuthorized () "Bearer" none (some (.lit "abc")) = true ∧
    isAuthorized () "None" none (some (.lit "abc")) = false := by
  refine ⟨?_, ?_, ?_⟩
  · exact (isAuthorized_characterization () "Custom"
      (some ⟨Value.lit ⟨[]⟩, fun _ => false⟩) (some (.lit "abc"))).1 _ rfl rfl
  · exact ((isAuthorized_characterization () "Bearer" none (some (.lit "abc"))).2.1
      rfl).mpr ⟨by decide, ⟨.lit "abc", rfl, by decide⟩⟩
  · exact (isAuthorized_characterization () "None" none (some (.lit "abc"))).2.2.2 rfl

/-- C6 (amended): `buildUrl("/" + x)` and `buildUrl(x)` agree for every `x`
that does not itself begin with a slash (for an `x` with a leading slash the
two differ, see the counterexample); `buildUrl` strips at most one leading
slash from its path argument and appends the remainder to `baseUrl()`. -/
theorem buildUrl_strip_leading_slash (root : String) (stage pfx version : Option String)
    (x : String) (hx : firstIsSlash x = false) :
    buildUrl root stage pfx version ("/" ++ x) = buildUrl root stage pfx version x ∧
    buildUrl root stage pfx version ("/" ++ ("/" ++ x))
      = baseUrl root stage pfx version ++ ("/" ++ x) ∧
    ∀ p : String, buildUrl root stage pfx version p
      = baseUrl root stage pfx version ++ (if firstIsSlash p then dropFirst p else p) := by
  have hdata : ∀ y : String, ("/" ++ y).data = '/' :: y.data := by
    intro y
    rw [String.data_append]
    rfl
  have hfirst : ∀ y : String, firstIsSlash ("/" ++ y) = true := by
    intro y
    simp [firstIsSlash, hdata]
  have hdrop : ∀ y : String, dropFirst ("/" ++ y) = y := by
    intro y
    apply String.ext
    simp [dropFirst, hdata]
  refine ⟨?_, ?_, fun p => rfl⟩
  · rw [buildUrl, buildUrl, if_pos (hfirst x), hdrop x, if_neg (by simp [hx])]
  · rw [buildUrl, if_pos (hfirst ("/" ++ x)), hdrop ("/" ++ x)]

/-- Witness for C6's amended statement at `x = "a"`. -/
theorem buildUrl_strip_leading_slash_witness :
    buildUrl "https://h" (some "dev") none none ("/" ++ "a")
      = buildUrl "https://h" (some "dev") none none "a" ∧
    buildUrl "https://h" (some "dev") none none "a" = "https://h/dev/a" := by
  exact ⟨(buildUrl_strip_leading_slash "https://h" (some "dev") none none "a"
    (by decide)).1, by decide⟩

/-- Counterexample to C6 as stated: for `x = "/a"` (which itself begins with
a slash), `buildUrl("/" + x)` keeps one of the two slashes while
`buildUrl(x)` strips its only slash, so the outputs differ. -/
theorem buildUrl_strip_leading_slash_counterexample :
    buildUrl "https://a" none none none ("/" ++ "/a")
      ≠ buildUrl "https://a" none none none "/a" := by decide

/-- C7: sanitization of `root` is asymmetric.  With an explicit scheme
separator (`://` occurs in `root`) and a scheme other than `https`,
construction fails with the insecure-scheme error when `secureOnly` is true
and only records a non-fatal warning when it is false; with no scheme
separator, `https://` is prepended unconditionally and construction succeeds
regardless of `secureOnly`. -/
theorem sanitize_scheme_asymmetry (secureOnly : Bool) (root : String)
    (stage pfx version : Option String) :
    (hasSub "://".data root.data = true →
      String.mk (beforeSub "://".data root.data) ≠ "https" →
        (secureOnly = true →
          sanitize secureOnly root stage pfx version = .error .insecureScheme) ∧
        (secureOnly = false → sanitize secureOnly root stage pfx version
          = .ok ⟨trimTrailingSlash root, stage.map stripSlashes, pfx.map stripSlashes,
                 version.map stripSlashes, true⟩)) ∧
    (hasSub "://".data root.data = false →
      sanitize secureOnly root stage pfx version
        = .ok ⟨trimTrailingSlash ("https://" ++ root), stage.map stripSlashes,
               pfx.map stripSlashes, version.map stripSlashes, false⟩) := by
  constructor
  · intro h1 h2
    constructor
    · rintro rfl
      rw [sanitize, sanitizeRoot, if_pos h1, if_pos h2]
      rfl
    · rintro rfl
      rw [sanitize, sanitizeRoot, if_pos h1, if_pos h2]
      rfl
  · intro h1
    rw [sanitize, sanitizeRoot, if_neg (by simp [h1])]
    rfl

/-- Witness for C7 at concrete inputs: `http://x.com` fails under
`secureOnly`, only warns without it, and the schemeless `x.com` is promoted
to `https://x.com` even under `secureOnly`. -/
theorem sanitize_scheme_asymmetry_witness :
    sanitize true "http://x.com" none none none = .error .insecureScheme ∧
    sanitize false "http://x.com" none none none
      = .ok ⟨"http://x.com", none, none, none, true⟩ ∧
    sanitize true "x.com" none none none
      = .ok ⟨"https://x.com", none, none, none, false⟩ := by
  refine ⟨?_, ?_, ?_⟩
  · exact ((sanitize_scheme_asymmetry true "http://x.com" none none none).1
      (by decide) (by decide)).1 rfl
  · exact ((sanitize_scheme_asymmetry false "http://x.com" none none none).1
      (by decide) (by decide)).2 rfl
  · exact (sanitize_scheme_asymmetry true "x.com" none none none).2 (by decide)

/-- C5: over sanitized settings (the output of `sanitize`, with the sanitized
root free of a trailing slash, as the data-model invariant of a valid settings
record demands), `baseUrl()` is the concatenation
`root [+ "/" + stage] [+ "/" + prefix] [+ "/" + version] + "/"` with each
segment included only if non-empty, in that fixed order; it always ends with
a slash, and with exactly one trailing slash; and it is deterministic in the
settings (repeated calls return the same string — immediate, since the model
is a pure function of the sanitized fields). -/
theorem baseUrl_sanitized_single_slash (secureOnly : Bool) (root0 : String)
    (stage0 pfx0 version0 : Option String) (st : Sanitized)
    (hsan : sanitize secureOnly root0 stage0 pfx0 version0 = .ok st)
    (hroot : lastIsSlash st.root = false) :
    baseUrl st.root st.stage st.pfx st.version
      = st.root ++ specSeg st.stage ++ specSeg st.pfx ++ specSeg st.version ++ "/" ∧
    lastIsSlash (baseUrl st.root st.stage st.pfx st.version) = true ∧
    trailingSlashCount (baseUrl st.root st.stage st.pfx st.version) = 1 ∧
    baseUrl st.root st.stage st.pfx st.version
      = baseUrl st.root st.stage st.pfx st.version := by
  have hfields : st.stage = stage0.map stripSlashes ∧ st.pfx = pfx0.map stripSlashes ∧
      st.version = version0.map stripSlashes := by
    cases hr : sanitizeRoot secureOnly root0 with
    | error e => rw [sanitize, hr] at hsan; exact absurd hsan (by simp [Except.map])
    | ok rw1 =>
      rw [sanitize, hr] at hsan
      simp only [Except.map, Except.ok.injEq] at hsan
      rw [← hsan]
      exact ⟨rfl, rfl, rfl⟩
  have hseg : ∀ (o : Option String) (o0 : Option String), o = o0.map stripSlashes →
      ∀ s, o = some s → '/' ∉ s.data := by
    rintro o o0 rfl s hs
    cases o0 with
    | none => exact absurd hs (by simp)
    | some t =>
      have : s = stripSlashes t := by simpa using hs.symm
      rw [this]
      exact stripSlashes_not_mem t
  have hb : lastIsSlash
      (appendSeg (appendSeg (appendSeg st.root st.stage) st.pfx) st.version) = false := by
    apply lastIsSlash_appendSeg
    · apply lastIsSlash_appendSeg
      · exact lastIsSlash_appendSeg st.root st.stage hroot
          (hseg st.stage stage0 hfields.1)
      · exact hseg st.pfx pfx0 hfields.2.1
    · exact hseg st.version version0 hfields.2.2
  refine ⟨?_, ?_, ?_, rfl⟩
  · rw [baseUrl, appendSeg_eq_specSeg, appendSeg_eq_specSeg, appendSeg_eq_specSeg]
  · exact lastIsSlash_append_slash _
  · exact trailingSlashCount_append_slash _ hb

/-- C8: middlewares run strictly in registration order, each receiving the
previous stage's output (single-step and chain-composition laws of the
response fold); a stage that fails short-circuits every remaining stage; and
when a stage fails during a call, no event listeners fire (the emitted event
list is empty) and the call rejects with that stage's error. -/
theorem middleware_chain_order_and_abort :
    (∀ (ε : Type) (f : Response → Except ε Response)
        (mws : List (Response → Except ε Response)) (r : Response),
      handleMiddlewares (f :: mws) r = (f r).bind (fun r1 => handleMiddlewares mws r1)) ∧
    (∀ (ε : Type) (xs ys : List (Response → Except ε Response)) (r : Response),
      handleMiddlewares (xs ++ ys) r
        = (handleMiddlewares xs r).bind (fun r1 => handleMiddlewares ys r1)) ∧
    (∀ (ε : Type) (xs ys : List (Response → Except ε Response)) (r : Response) (e : ε),
      handleMiddlewares xs r = .error e → handleMiddlewares (xs ++ ys) r = .error e) ∧
    (∀ (ω ε : Type) (w : ω) (api : ApiInst ω ε) (transport : Request → Except ε Response)
        (path : String) (options : FetchOptions ω) (req : Request) (r : Response) (e : ε),
      buildRequest w api path options = some req →
      transport req = .ok r →
      handleMiddlewares api.middlewares r = .error e →
      callRoute w api transport path options = ⟨.rejectedError e, []⟩) := by
  refine ⟨fun ε f mws r => handleMiddlewares_cons f mws r,
          fun ε xs ys r => handleMiddlewares_append xs ys r,
          ?_, ?_⟩
  · intro ε xs ys r e h
    rw [handleMiddlewares_append, h]
    rfl
  · intro ω ε w api transport path options req r e hreq hfetch hmw
    simp only [callRoute, hreq, processResponse, hfetch, hmw]

/-- Witness for C8: a first middleware that throws makes the call reject with
its error while the second middleware never contributes and no events are
emitted, despite `success`/`error`/status listeners being registered. -/
theorem middleware_chain_order_and_abort_witness :
    callRoute ()
      ({ strategy := "None"
         root := "https://a"
         middlewares := [fun _ => .error "boom", fun r => .ok r]
         eventNames := ["success", "error", "200"] } : ApiInst Unit String)
      (fun _ => .ok ⟨true, 200⟩) "p" {}
      = ⟨.rejectedError "boom", []⟩ := by
  exact middleware_chain_order_and_abort.2.2.2 Unit String ()
    { strategy := "None"
      root := "https://a"
      middlewares := [fun _ => .error "boom", fun r => .ok r]
      eventNames := ["success", "error", "200"] }
    (fun _ => .ok ⟨true, 200⟩) "p" {} ⟨"https://a/p", none, none, none⟩ ⟨true, 200⟩ "boom"
    rfl rfl rfl

/-- C9 (amended): the event stage emits to a listener registered under the
decimal string of the status if any; it emits to `success` listeners exactly
when the unanchored test `/2\d\d/` matches the status string — which for
every status below 1000 (hence every real HTTP status) coincides with the
status lying in 200–299 — and to `error` listeners otherwise; only registered
listener names are emitted to (absence is silently skipped); and the event
stage returns the very response it received, unaltered, to the
success/failure classification. -/
theorem handleEvents_characterization (names : List String) (r : Response) :
    (handleEvents names r).2 = r ∧
    (natToDecimal r.status ∈ names → natToDecimal r.status ∈ (handleEvents names r).1) ∧
    ("success" ∈ (handleEvents names r).1 ↔
      "success" ∈ names ∧ has2dd (natToDecimal r.status).data = true) ∧
    ("error" ∈ (handleEvents names r).1 ↔
      "error" ∈ names ∧ has2dd (natToDecimal r.status).data = false) ∧
    (r.status ≤ 999 →
      (has2dd (natToDecimal r.status).data = true ↔ 200 ≤ r.status ∧ r.status ≤ 299)) ∧
    (∀ n, n ∈ (handleEvents names r).1 → n ∈ names) := by
  have hsucc := natToDecimal_ne_success r.status
  have herr := natToDecimal_ne_error r.status
  have hmem : ∀ n, n ∈ (handleEvents names r).1 ↔
      (n = natToDecimal r.status ∧ natToDecimal r.status ∈ names) ∨
      (has2dd (natToDecimal r.status).data = true ∧ n = "success" ∧ "success" ∈ names) ∨
      (has2dd (natToDecimal r.status).data = false ∧ n = "error" ∧ "error" ∈ names) := by
    intro n
    simp only [handleEvents, List.mem_append]
    by_cases h1 : natToDecimal r.status ∈ names <;>
      cases h2 : has2dd (natToDecimal r.status).data <;>
        by_cases h3 : "success" ∈ names <;>
          by_cases h4 : "error" ∈ names <;>
            simp [h1, h2, h3, h4]
  refine ⟨rfl, ?_, ?_, ?_, ?_, ?_⟩
  · intro h
    exact (hmem _).mpr (.inl ⟨rfl, h⟩)
  · rw [hmem "success"]
    constructor
    · rintro (⟨heq, -⟩ | ⟨h2, -, h3⟩ | ⟨-, heq, -⟩)
      · exact absurd heq.symm hsucc
      · exact ⟨h3, h2⟩
      · exact absurd heq (by decide)
    · rintro ⟨h3, h2⟩
      exact .inr (.inl ⟨h2, rfl, h3⟩)
  · rw [hmem "error"]
    constructor
    · rintro (⟨heq, -⟩ | ⟨-, heq, -⟩ | ⟨h2, -, h4⟩)
      · exact absurd heq.symm herr
      · exact absurd heq (by decide)
      · exact ⟨h4, h2⟩
    · rintro ⟨h4, h2⟩
      exact .inr (.inr ⟨h2, rfl, h4⟩)
  · intro hle
    rw [has2dd_natToDecimal_lt_1000 r.status (by omega)]
    simp
  · intro n hn
    rcases (hmem n).mp hn with ⟨heq, h⟩ | ⟨-, heq, h⟩ | ⟨-, heq, h⟩ <;> exact heq ▸ h

/-- Witness for C9's amended statement: with listeners for `success`, `error`
and `200`, a 200 response emits the status event then `success`; a 500
response emits only `error`; and the response is returned unaltered. -/
theorem handleEvents_characterization_witness :
    (handleEvents ["success", "error", "200"] ⟨true, 200⟩).1 = ["200", "success"] ∧
    (handleEvents ["success", "error", "200"] ⟨false, 500⟩).1 = ["error"] ∧
    (handleEvents ["success", "error", "200"] ⟨false, 500⟩).2 = ⟨false, 500⟩ := by
  have h1 := (handleEvents_characterization ["success", "error", "200"] ⟨true, 200⟩).2.1
    (by decide)
  have h2 := ((handleEvents_characterization ["success", "error", "200"]
    ⟨false, 500⟩).2.2.2.1).mpr ⟨by decide, by decide⟩
  exact ⟨by decide, by decide,
    (handleEvents_characterization ["success", "error", "200"] ⟨false, 500⟩).1⟩

/-- Counterexample to C9 as stated: a response with status 1200 is not in the
2xx range, yet the unanchored `/2\d\d/` test matches `"1200"` and the stage
emits to `success` listeners. -/
theorem handleEvents_success_range_counterexample :
    "success" ∈ (handleEvents ["success", "error"] ⟨true, 1200⟩).1 ∧
    ¬(200 ≤ 1200 ∧ 1200 ≤ 299) := by decide

/-- C1: when the transport invocation succeeds and the middleware chain
completes, the call emits exactly the events computed by the event stage on
the middleware-transformed response, the promise resolves with that
(possibly transformed) response exactly when its `ok` flag is true, and
otherwise rejects with that same response (which still carries its `status`
and `ok` fields). -/
theorem callRoute_resolves_iff_ok {ω ε : Type} (w : ω) (api : ApiInst ω ε)
    (transport : Request → Except ε Response) (path : String) (options : FetchOptions ω)
    (req : Request) (r r1 : Response)
    (hreq : buildRequest w api path options = some req)
    (hfetch : transport req = .ok r)
    (hmw : handleMiddlewares api.middlewares r = .ok r1) :
    callRoute w api transport path options
      = ⟨if r1.ok then .resolved r1 else .rejectedResponse r1,
         (handleEvents api.eventNames r1).1⟩ ∧
    ((callRoute w api transport path options).outcome = .resolved r1 ↔ r1.ok = true) ∧
    (r1.ok = false →
      (callRoute w api transport path options).outcome = .rejectedResponse r1) := by
  have h2 : (handleEvents api.eventNames r1).2 = r1 := rfl
  have hcall : callRoute w api transport path options
      = ⟨if r1.ok then .resolved r1 else .rejectedResponse r1,
         (handleEvents api.eventNames r1).1⟩ := by
    simp only [callRoute, hreq, processResponse, hfetch, hmw, h2]
    cases hok : r1.ok <;> simp [hok]
  refine ⟨hcall, ?_, ?_⟩
  · rw [hcall]
    cases hok : r1.ok <;> simp
  · intro hok
    rw [hcall, hok]
    simp

/-- Witness for C1: a transport returning a status-500 response with
`ok = false` makes the call reject with that response, whose `status` is
still 500 and whose `ok` flag is still false. -/
theorem callRoute_resolves_iff_ok_witness :
    (callRoute () ({ strategy := "None", root := "https://a" } : ApiInst Unit Unit)
        (fun _ => .ok ⟨false, 500⟩) "x" {}).outcome = .rejectedResponse ⟨false, 500⟩ ∧
    (⟨false, 500⟩ : Response).status = 500 ∧ (⟨false, 500⟩ : Response).ok = false := by
  refine ⟨?_, rfl, rfl⟩
  exact (callRoute_resolves_iff_ok () { strategy := "None", root := "https://a" }
    (fun _ => .ok ⟨false, 500⟩) "x" {} ⟨"https://a/x", none, none, none⟩
    ⟨false, 500⟩ ⟨false, 500⟩ rfl rfl rfl).2.2 rfl

/-- C2: on a dispatch with a non-`Custom` strategy (under which no custom-auth
record can ever be stored — last conjunct) while `isAuthorized()` holds, the
outgoing headers carry `Authorization` equal to the strategy name, a space,
and the token value resolved at the moment of that dispatch (`varOrFn` at the
dispatch world `w`), so a provider-backed token is re-read lazily on every
call without re-calling `authorize`. -/
theorem callRoute_nonCustom_authorization_header {ω ε : Type} (w : ω) (api : ApiInst ω ε)
    (path : String) (options : FetchOptions ω) (hm : HeaderMap) (v : Value ω String)
    (hs : api.strategy ≠ "Custom")
    (hca : api.customAuth = none)
    (htok : api.token = some v)
    (ha : isAuthorized w api.strategy api.customAuth api.token = true)
    (hh : (mergeOptions api.defaultOptions options).headers.map (varOrFn w) = some hm) :
    buildRequest w api path options = some
      { url := buildUrl api.root api.stage api.pfx api.version path
        method := (mergeOptions api.defaultOptions options).method
        headers := some (hm.set "Authorization" (api.strategy ++ " " ++ varOrFn w v))
        body := (mergeOptions api.defaultOptions options).body } ∧
    (hm.set "Authorization" (api.strategy ++ " " ++ varOrFn w v)).get "Authorization"
      = some (api.strategy ++ " " ++ varOrFn w v) ∧
    (∀ (api2 : ApiInst ω ε) (b64 : String → String) (args : AuthArgs ω)
        (res : ApiInst ω ε),
      api2.strategy ≠ "Custom" → api2.customAuth = none →
      authorize b64 api2 args = .ok res → res.customAuth = none) := by
  refine ⟨?_, headerMap_get_set _ _ _, ?_⟩
  · have ha2 : isAuthorized w api.strategy none (some v) = true := by
      rw [← hca, ← htok]
      exact ha
    simp only [buildRequest, hca, htok, hh, Option.getD_some, Option.map_some', ha2, if_true]
  · intro api2 b64 args res hs2 hca2 hres
    rw [authorize] at hres
    split at hres
    · cases hres
      exact hca2
    · split at hres
      · next hB =>
        exact absurd (of_decide_eq_true (Bool.and_eq_true _ _ |>.mp
          (Bool.and_eq_true _ _ |>.mp hB).1 |>.1)) hs2
      · split at hres
        · cases hres
          exact hca2
        · cases hres

/-- Witness for C2: with strategy `Bearer` and a provider token whose value
depends on the world, the header attached at dispatch time is
`Bearer abc` in one world and `Bearer xyz` in another, with no intervening
`authorize` call. -/
theorem callRoute_nonCustom_authorization_header_witness :
    buildRequest false
      ({ strategy := "Bearer"
         token := some (.fn (fun late => if late then "xyz" else "abc"))
         root := "https://a"
         defaultOptions :=
           { headers := some (.lit ⟨[("Content-Type", "application/json")]⟩) } }
        : ApiInst Bool Unit) "p" {}
      = some
        { url := "https://a/p"
          method := none
          headers := some ⟨[("Content-Type", "application/json"),
                            ("Authorization", "Bearer abc")]⟩
          body := none } ∧
    buildRequest true
      ({ strategy := "Bearer"
         token := some (.fn (fun late => if late then "xyz" else "abc"))
         root := "https://a"
         defaultOptions :=
           { headers := some (.lit ⟨[("Content-Type", "application/json")]⟩) } }
        : ApiInst Bool Unit) "p" {}
      = some
        { url := "https://a/p"
          method := none
          headers := some ⟨[("Content-Type", "application/json"),
                            ("Authorization", "Bearer xyz")]⟩
          body := none } := by
  constructor
  · exact ((callRoute_nonCustom_authorization_header false
      { strategy := "Bearer"
        token := some (.fn (fun late => if late then "xyz" else "abc"))
        root := "https://a"
        defaultOptions :=
          { headers := some (.lit ⟨[("Content-Type", "application/json")]⟩) } }
      "p" {} ⟨[("Content-Type", "application/json")]⟩
      (.fn (fun late => if late then "xyz" else "abc"))
      (by decide) rfl rfl rfl rfl).1).trans (by rfl)
  · exact ((callRoute_nonCustom_authorization_header true
      { strategy := "Bearer"
        token := some (.fn (fun late => if late then "xyz" else "abc"))
        root := "https://a"
        defaultOptions :=
          { headers := some (.lit ⟨[("Content-Type", "application/json")]⟩) } }
      "p" {} ⟨[("Content-Type", "application/json")]⟩
      (.fn (fun late => if late then "xyz" else "abc"))
      (by decide) rfl rfl rfl rfl).1).trans (by rfl)

/-- C10: the verb helpers overwrite the `method` and (for the body-carrying
verbs) the `body` fields of the caller's options before the merge, so the
dispatched request always carries the verb's method (`POST`/`PUT`/`PATCH`/
`DELETE`/`HEAD`) and, for `post`/`put`/`patch`, the serialized payload as its
body, no matter what `method`/`body` the caller's options or the instance
default options supplied; `delete` and `head` set no body of their own (the
dispatched body is then the merge of the caller's and default options'
bodies). -/
theorem verb_helpers_force_method_body {ω ε β : Type} (w : ω) (api : ApiInst ω ε)
    (path : String) (stringify : β → String) (b : β) (options : FetchOptions ω) :
    (∀ req, buildRequest w api path (postOptions stringify b options) = some req →
      req.method = some "POST" ∧ req.body = some (stringify b)) ∧
    (∀ req, buildRequest w api path (putOptions stringify b options) = some req →
      req.method = some "PUT" ∧ req.body = some (stringify b)) ∧
    (∀ req, buildRequest w api path (patchOptions stringify b options) = some req →
      req.method = some "PATCH" ∧ req.body = some (stringify b)) ∧
    ((deleteOptions options).body = options.body ∧
      ∀ req, buildRequest w api path (deleteOptions options) = some req →
        req.method = some "DELETE" ∧ req.body = (options.body <|> api.defaultOptions.body)) ∧
    ((headOptions options).body = options.body ∧
      ∀ req, buildRequest w api path (headOptions options) = some req →
        req.method = some "HEAD" ∧ req.body = (options.body <|> api.defaultOptions.body)) := by
  refine ⟨?_, ?_, ?_, ⟨rfl, ?_⟩, ⟨rfl, ?_⟩⟩ <;>
    · intro req h
      have hp := buildRequest_proj w api path _ req h
      refine ⟨hp.1.trans ?_, hp.2.trans ?_⟩ <;>
        simp [mergeOptions, postOptions, putOptions, patchOptions, deleteOptions, headOptions]

/-- Witness for C10: with default method `GET` and a caller supplying both a
conflicting method `X` and body `Y`, the dispatched `post` request still has
method `POST` and the serialized payload as body. -/
theorem verb_helpers_force_method_body_witness :
    buildRequest () ({ strategy := "None", root := "https://a" } : ApiInst Unit Unit) "p"
        (postOptions (fun s => s) "pay" { method := some "X", body := some "Y" })
      = some ⟨"https://a/p", some "POST", none, some "pay"⟩ ∧
    (⟨"https://a/p", some "POST", none, some "pay"⟩ : Request).method = some "POST" ∧
    (⟨"https://a/p", some "POST", none, some "pay"⟩ : Request).body = some "pay" := by
  refine ⟨rfl, ?_⟩
  exact (verb_helpers_force_method_body ()
    ({ strategy := "None", root := "https://a" } : ApiInst Unit Unit) "p"
    (fun s : String => s) "pay" { method := some "X", body := some "Y" }).1
    ⟨"https://a/p", some "POST", none, some "pay"⟩ rfl

/-- Witness for C5 at the test-suite settings: root `api.example.com`, stage
`dev`, prefix `api`, version `v1`. -/
theorem baseUrl_sanitized_single_slash_witness :
    baseUrl "https://api.example.com" (some "dev") (some "api") (some "v1")
      = "https://api.example.com/dev/api/v1/" ∧
    trailingSlashCount
      (baseUrl "https://api.example.com" (some "dev") (some "api") (some "v1")) = 1 := by
  have h := baseUrl_sanitized_single_slash true "api.example.com"
    (some "dev") (some "api") (some "v1")
    ⟨"https://api.example.com", some "dev", some "api", some "v1", false⟩ (by rfl) (by decide)
  exact ⟨by decide, h.2.2.1⟩

/-- C4: `authorize` stores a (truthy) token argument unconditionally
regardless of strategy; under `Custom` with truthy headers and a callable
`validate` it stores the custom-auth record; under `Basic` with truthy
username and password it stores a provider that lazily base64-encodes
`username:password` on each read — so a later authorized call attaches
`"Basic " + base64(username + ":" + password)` (last conjunct); and in every
other case it throws the invalid-arguments error synchronously, storing
nothing (the instance state is only replaced by a successful result). -/
theorem authorize_cases {ω ε : Type} (b64 : String → String) (api : ApiInst ω ε)
    (args : AuthArgs ω) :
    (valueTruthy args.token = true →
      authorize b64 api args = .ok { api with token := args.token }) ∧
    (∀ hv f, valueTruthy args.token = false → api.strategy = "Custom" →
      args.headers = some hv → args.validate = some (.callable f) →
      authorize b64 api args = .ok { api with customAuth := some ⟨hv, f⟩ }) ∧
    (∀ u p, valueTruthy args.token = false → api.strategy = "Basic" →
      args.username = some u → args.password = some p →
      valueTruthy args.username = true → valueTruthy args.password = true →
      authorize b64 api args = .ok { api with token := some (.fn (fun w =>
        b64 (varOrFn w u ++ ":" ++ varOrFn w p))) }) ∧
    (valueTruthy args.token = false →
      ¬(api.strategy = "Custom" ∧ headersTruthy args.headers = true ∧
        validateCallable args.validate = true) →
      ¬(api.strategy = "Basic" ∧ valueTruthy args.username = true ∧
        valueTruthy args.password = true) →
      authorize b64 api args = .error .invalidAuthorizationArgs) ∧
    (∀ u p (w2 : ω) (hm : HeaderMap) (path : String) (options : FetchOptions ω)
        (res : ApiInst ω ε),
      valueTruthy args.token = false → api.strategy = "Basic" →
      args.username = some u → args.password = some p →
      valueTruthy args.username = true → valueTruthy args.password = true →
      api.customAuth = none →
      authorize b64 api args = .ok res →
      (mergeOptions api.defaultOptions options).headers.map (varOrFn w2) = some hm →
      jsTrim (b64 (varOrFn w2 u ++ ":" ++ varOrFn w2 p)) ≠ "" →
      buildRequest w2 res path options = some
        { url := buildUrl api.root api.stage api.pfx api.version path
          method := (mergeOptions api.defaultOptions options).method
          headers := some (hm.set "Authorization"
            ("Basic " ++ b64 (varOrFn w2 u ++ ":" ++ varOrFn w2 p)))
          body := (mergeOptions api.defaultOptions options).body }) := by
  have hbasic : ∀ u p, valueTruthy args.token = false → api.strategy = "Basic" →
      args.username = some u → args.password = some p →
      valueTruthy args.username = true → valueTruthy args.password = true →
      authorize b64 api args = .ok { api with token := some (.fn (fun w =>
        b64 (varOrFn w u ++ ":" ++ varOrFn w p))) } := by
    intro u p ht hb hu hp htu htp
    rw [authorize, if_neg (by simp [ht]), if_neg (by simp [hb]), if_pos (by simp [hb, htu, htp])]
    simp only [hu, hp, Option.getD_some]
  refine ⟨?_, ?_, hbasic, ?_, ?_⟩
  · intro ht
    rw [authorize, if_pos ht]
  · intro hv f ht hc hh hv2
    rw [authorize, if_neg (by simp [ht]),
      if_pos (by simp [hc, hh, hv2, headersTruthy, validateTruthy]), hh, hv2]
  · intro ht h1 h2
    rw [authorize, if_neg (by simp [ht])]
    by_cases hB : (decide (api.strategy = "Custom") && headersTruthy args.headers &&
        validateTruthy args.validate) = true
    · rw [if_pos hB]
      have hcustom : api.strategy = "Custom" :=
        of_decide_eq_true ((Bool.and_eq_true _ _).mp ((Bool.and_eq_true _ _).mp hB).1).1
      cases hhd : args.headers with
      | none => rfl
      | some hv =>
        cases hvd : args.validate with
        | none => rfl
        | some vf =>
          cases vf with
          | callable f =>
            exact absurd ⟨hcustom, by rw [hhd]; rfl, by rw [hvd]; rfl⟩ h1
          | notCallable bb => rfl
    · rw [if_neg hB]
      by_cases hC : (decide (api.strategy = "Basic") && valueTruthy args.username &&
          valueTruthy args.password) = true
      · refine absurd ⟨?_, ?_, ?_⟩ h2
        · exact of_decide_eq_true ((Bool.and_eq_true _ _).mp ((Bool.and_eq_true _ _).mp hC).1).1
        · exact ((Bool.and_eq_true _ _).mp ((Bool.and_eq_true _ _).mp hC).1).2
        · exact ((Bool.and_eq_true _ _).mp hC).2
      · rw [if_neg hC]
  · intro u p w2 hm path options res ht hb hu hp htu htp hca hres hh htrim
    rw [hbasic u p ht hb hu hp htu htp] at hres
    cases hres
    have htne : b64 (varOrFn w2 u ++ ":" ++ varOrFn w2 p) ≠ "" := by
      intro he
      exact htrim (by rw [he]; rfl)
    have ha : isAuthorized w2 "Basic"
        (none : Option (CustomAuth ω))
        (some (.fn (fun w => b64 (varOrFn w u ++ ":" ++ varOrFn w p)))) = true := by
      show (decide (("Basic" : String) ≠ "None") &&
        (decide (b64 (varOrFn w2 u ++ ":" ++ varOrFn w2 p) ≠ "") &&
         decide (jsTrim (b64 (varOrFn w2 u ++ ":" ++ varOrFn w2 p)) ≠ ""))) = true
      rw [Bool.and_eq_true, Bool.and_eq_true]
      exact ⟨by decide, decide_eq_true htne, decide_eq_true htrim⟩
    show buildRequest w2
      { api with token := some (.fn (fun w => b64 (varOrFn w u ++ ":" ++ varOrFn w p))) }
      path options = _
    rw [buildRequest]
    simp only [hca, hh, hb, ha, if_true, Option.getD_some, Option.map_some']
    rfl

/-- Witness for C4: a token argument is stored as-is under any strategy; a
`Basic` authorize with literal credentials stores the lazy encoder and a
subsequent dispatch attaches `"Basic " + base64("user:pass")` (`b64` taken
as the identity function for the witness, so the header reads
`Basic user:pass`); empty arguments throw. -/
theorem authorize_cases_witness :
    authorize (fun s => s)
        ({ strategy := "Bearer", root := "https://a" } : ApiInst Unit Unit)
        { token := some (.lit "tok") }
      = .ok { strategy := "Bearer", root := "https://a", token := some (.lit "tok") } ∧
    authorize (fun s => s)
        ({ strategy := "None", root := "https://a" } : ApiInst Unit Unit) {}
      = .error .invalidAuthorizationArgs ∧
    (∀ res, authorize (fun s => s)
        ({ strategy := "Basic", root := "https://a",
           defaultOptions := { headers := some (.lit ⟨[]⟩) } } : ApiInst Unit Unit)
        { username := some (.lit "user"), password := some (.lit "pass") } = .ok res →
      buildRequest () res "p" {} = some
        { url := "https://a/p", method := none,
          headers := some ⟨[("Authorization", "Basic user:pass")]⟩, body := none }) := by
  refine ⟨?_, ?_, ?_⟩
  · exact (authorize_cases (fun s => s)
      ({ strategy := "Bearer", root := "https://a" } : ApiInst Unit Unit)
      { token := some (.lit "tok") }).1 (by decide)
  · exact (authorize_cases (fun s => s)
      ({ strategy := "None", root := "https://a" } : ApiInst Unit Unit) {}).2.2.2.1
      (by decide) (by simp) (by simp)
  · intro res hres
    exact ((authorize_cases (fun s => s)
      ({ strategy := "Basic", root := "https://a",
         defaultOptions := { headers := some (.lit ⟨[]⟩) } } : ApiInst Unit Unit)
      { username := some (.lit "user"), password := some (.lit "pass") }).2.2.2.2
      (.lit "user") (.lit "pass") () ⟨[]⟩ "p" {} res
      rfl rfl rfl rfl (by decide) (by decide) rfl hres rfl (by decide)).trans (by rfl)

end BowtieApi
